import Mathlib

/-!
A verification development for the `create-startkit` scaffolding CLI
(`bin/create-startkit.js`).  The JavaScript program is shallowly embedded:
lines and file contents are lists of characters / strings, the filesystem is
an explicit association list from paths to contents, the stream of
`randomBytes(32)` draws is an explicit supply `Nat → List Nat`, and each
source function (`createEnv`, `pruneModules`, `runAnswers`, the argv
normalisation and repository selection at top level) becomes a pure Lean
function faithful to the JavaScript semantics (JS `String.split` on every
occurrence of the separator, destructuring that drops later segments,
`undefined` interpolating as the string `"undefined"`, `||` defaulting on the
empty string, caught exceptions logged and execution continuing).
-/

/-- JS `s.split(sep)` for a single-character separator, on the character
list of the string: splits on every occurrence, keeping empty segments
(`"".split(c) = [""]`, `"a=".split("=") = ["a", ""]`). -/
def splitOnChar (c : Char) : List Char → List (List Char)
  | [] => [[]]
  | x :: xs =>
    if x = c then [] :: splitOnChar c xs
    else
      match splitOnChar c xs with
      | [] => [[x]]
      | g :: gs => (x :: g) :: gs

/-- JS `s.startsWith(pre)` on character lists. -/
def startsWithList : List Char → List Char → Bool
  | [], _ => true
  | _ :: _, [] => false
  | p :: ps, s :: ss => p = s && startsWithList ps ss

/-- `line.startsWith("#") || line.trim() === ""`: the branch of the
materialization loop that copies the line through verbatim
(`create-startkit.js` line 343). -/
def isPassthrough (line : List Char) : Bool :=
  startsWithList ("#".toList) line || line.all (fun c => c.isWhitespace)

/-- The `key` component of `let [key, value] = line.split("=")`
(line 346): the segment before the first `=`. -/
def lineKey (line : List Char) : List Char :=
  (splitOnChar '=' line).headD []

/-- The `value` component of the same destructuring: the segment between the
first and the second `=`; `undefined` when the line has no `=` at all, and JS
interpolates `undefined` as the string `"undefined"`. -/
def lineRawValue (line : List Char) : List Char :=
  match (splitOnChar '=' line)[1]? with
  | some v => v
  | none => "undefined".toList

/-- One random byte supply: the result of the k-th `randomBytes(32)` call of
a run, as a list of byte values. -/
abbrev Bytes := List Nat

/-- A supply is well formed when every draw is 32 bytes, each below 256. -/
def validSupply (s : Nat → Bytes) : Prop :=
  ∀ k, (s k).length = 32 ∧ ∀ b ∈ s k, b < 256

/-- Lower-case hex digit for a value below 16 (`Buffer.toString("hex")`
output alphabet). -/
def hexDigitChar (n : Nat) : Char :=
  if n < 10 then Char.ofNat (48 + n) else Char.ofNat (87 + n)

/-- Hex encoding of one byte: two lower-case hex digits, high nibble first. -/
def byteToHex (b : Nat) : List Char :=
  [hexDigitChar (b / 16), hexDigitChar (b % 16)]

/-- `randomBytes(32).toString("hex")` applied to an explicit byte draw:
the embedding of `generateSecret` (line 314). -/
def generateSecret (bs : Bytes) : List Char :=
  (bs.map byteToHex).flatten

/-- Membership in the lower-case hex alphabet. -/
def isHexChar (c : Char) : Bool :=
  ("0123456789abcdef".toList).contains c

/-- The keys the `switch` of the materialization loop (lines 347-357) maps
to freshly generated secrets. -/
def secretKeyList : List (List Char) :=
  ["EMBEDDINGS_BEARER_TOKEN".toList, "JWT_SECRET".toList]

/-- Whether a template line takes the secret-generating branch of the loop:
not a passthrough line and its key is one of the two designated secret keys. -/
def isSecretLine (line : List Char) : Bool :=
  if isPassthrough line then false
  else if lineKey line = "EMBEDDINGS_BEARER_TOKEN".toList ∨
          lineKey line = "JWT_SECRET".toList then true
  else false

/-- One iteration of the materialization loop (lines 342-361) on one element
of `linesArray`, given the hex secret that would be generated if this line
needs one.  Returns the emitted line (without its trailing newline) and
whether a secret draw was consumed. -/
def processLine (secret : List Char) (line : List Char) :
    List Char × Bool :=
  if isPassthrough line then (line, false)
  else if lineKey line = "EMBEDDINGS_BEARER_TOKEN".toList ∨
          lineKey line = "JWT_SECRET".toList then
    (lineKey line ++ '=' :: secret, true)
  else
    (lineKey line ++ '=' :: lineRawValue line, false)

/-- The whole loop over `linesArray`, threading the index of the next
`randomBytes` draw. -/
def materializeAux (s : Nat → Bytes) : Nat → List (List Char) → List (List Char)
  | _, [] => []
  | k, l :: ls =>
    (processLine (generateSecret (s k)) l).1 ::
      materializeAux s (if (processLine (generateSecret (s k)) l).2 then k + 1 else k) ls

/-- Materialization of a template's line list, starting from the first draw. -/
def materializeLines (s : Nat → Bytes) (lines : List (List Char)) :
    List (List Char) :=
  materializeAux s 0 lines

/-- Number of secret-consuming lines in a list: the number of `randomBytes`
draws the loop makes over it. -/
def secretsIn (lines : List (List Char)) : Nat :=
  lines.countP (fun l => isSecretLine l)

-- Sanity checks on the line-level embedding.
example : splitOnChar '=' "A=b=c".toList = ["A".toList, "b".toList, "c".toList] := by decide
example : lineKey "A=b=c".toList = "A".toList := by decide
example : lineRawValue "A=b=c".toList = "b".toList := by decide
example : lineRawValue "FOO".toList = "undefined".toList := by decide
example : isPassthrough "# comment".toList = true := by decide
example : isPassthrough "".toList = true := by decide
example : isPassthrough "A=1".toList = false := by decide
example : isSecretLine "JWT_SECRET=".toList = true := by decide
example : isSecretLine "MONGO_URI=".toList = false := by decide
example : generateSecret [0, 255] = "00ff".toList := by decide

/-! ### Filesystem and answer model -/

/-- A flat filesystem: an association list from absolute paths to file
contents.  Directories are implicit (a directory is the set of paths below
it). -/
structure FS where
  files : List (String × String)
deriving DecidableEq

/-- Read a file's contents; `none` when the path does not exist
(`readFileSync` throwing `ENOENT`). -/
def FS.read (fs : FS) (p : String) : Option String :=
  (fs.files.find? (fun f => f.1 = p)).map (fun f => f.2)

/-- Write (create or replace) a file. -/
def FS.write (fs : FS) (p : String) (c : String) : FS :=
  ⟨(p, c) :: fs.files.filter (fun f => !(f.1 = p))⟩

/-- `fs.rmSync(path, { recursive: true, force: true })`: removes the path
and everything below it; removing an absent path is a no-op. -/
def FS.rmRecursive (fs : FS) (dir : String) : FS :=
  ⟨fs.files.filter (fun f =>
    !(f.1 = dir || startsWithList (dir ++ "/").toList f.1.toList))⟩

/-- The answer object produced by the prompt collector.  Conditional
questions that were not shown leave their key absent (`none`); `openAiKey`
is listed because `createEnv` reads `answers.openAiKey`, a property no
prompt ever sets (the prompt key is `openApiKey`), so a faithful collector
always leaves it `none`. -/
structure Answers where
  projectName : String
  modules : List String
  openApiKey : Option String
  mongoUri : Option String
  enableStorage : Option String
  storageName : Option String
  storageRegion : Option String
  storageUrl : Option String
  storageKey : Option String
  storageSecret : Option String
  enablePinecone : Option String
  pineconeApiKey : Option String
  pineconeIndexHost : Option String
  type : String
  startAdmin : Option String
  openAiKey : Option String
deriving DecidableEq

/-- The `output` array `createEnv` builds from the answers (lines 322-335),
including the conditional `DISABLE_AUTH` push for the `(Open)` app type.
The source never reads this array after building it. -/
def envOutputArray (a : Answers) : List (String × Option String) :=
  [("MONGO_URI", a.mongoUri),
   ("STORAGE_NAME", a.storageName),
   ("STORAGE_REGION", a.storageRegion),
   ("STORAGE_URL", a.storageUrl),
   ("STORAGE_KEY", a.storageKey),
   ("STORAGE_SECRET", a.storageSecret),
   ("PINECONE_API_KEY", a.pineconeApiKey),
   ("PINECONE_INDEX_HOST", a.pineconeIndexHost),
   ("OPENAI_KEY", a.openAiKey)] ++
  (if startsWithList "(Open)".toList a.type.toList then
    [("DISABLE_AUTH", some "1")]
   else [])

/-- The two error conditions `createEnv`'s `try` block can hit in this
model: the exclusive create (`flag: "wx"`) finding `.env` already present,
and `readFileSync` finding `.env.example` absent.  Both are caught by the
`catch` and logged. -/
inductive EnvError
  | destExists
  | templateMissing
deriving DecidableEq

/-- The embedding of `createEnv` (lines 318-368).  Returns the final
filesystem and the caught error, if any.  Mirrors the source's statement
order: the answers-derived `output` array is built first and never used;
the empty `.env` is created exclusively; then `.env.example` is read, split
on newlines, and each element appended (with a trailing newline) after the
per-line rewrite. -/
def createEnv (a : Answers) (projectPath : String) (s : Nat → Bytes)
    (fs : FS) : FS × Option EnvError :=
  let envPath := projectPath ++ "/.env"
  let envExamplePath := projectPath ++ "/.env.example"
  let _output := envOutputArray a
  match fs.read envPath with
  | some _ => (fs, some EnvError.destExists)
  | none =>
    let fs1 := fs.write envPath ""
    match fs1.read envExamplePath with
    | none => (fs1, some EnvError.templateMissing)
    | some content =>
      let linesArray := splitOnChar '\n' content.toList
      let outLines := materializeLines s linesArray
      let newContent := String.mk ((outLines.map (fun l => l ++ ['\n'])).flatten)
      (fs1.write envPath newContent, none)

/-- The display-name → subtree mapping of `pruneModules` (lines 293-301). -/
def modulePathTable : List (String × String) :=
  [("Chat", "chat"),
   ("Image Generation", "images"),
   ("Text-to-Speech & Speech-to-Text", "speech"),
   ("Translation", "translation"),
   ("Moderation", "moderation"),
   ("Documnent Analysis", "text"),
   ("AI Detection", "detect")]

/-- The embedding of `pruneModules` (lines 289-313): no-op when
`"Everything!"` was selected, otherwise every unselected module's subtree is
removed recursively. -/
def pruneModules (modules : List String) (projectPath : String) (fs : FS) : FS :=
  if modules.contains "Everything!" then fs
  else
    modulePathTable.foldl
      (fun acc nr =>
        if modules.all (fun m => !(m = nr.1)) then
          acc.rmRecursive (projectPath ++ "/server/api/modules/" ++ nr.2)
        else acc)
      fs

/-- The clone step: deposits the remote repository's tree (given as relative
path / content pairs) under the project path. -/
def cloneRepo (repoFiles : List (String × String)) (projectPath : String)
    (fs : FS) : FS :=
  ⟨fs.files ++ repoFiles.map (fun f => (projectPath ++ "/" ++ f.1, f.2))⟩

/-- The observable lifecycle events of `runAnswers`, in the order the
source emits them. -/
inductive Event
  | cloned
  | depsInstalled
  | envCreated
  | envFailed
  | modulesPruned
  | setupComplete
deriving DecidableEq

/-- The embedding of `runAnswers` (lines 251-276), sequencing the pipeline
exactly as the source does: clone, `yarn` install, `createEnv`, then
`pruneModules`, then the `Setup complete!` log.  Each stage appends its
event to the log as it finishes; `createEnv`'s caught error only changes
which event is logged, never whether the run continues. -/
def runAnswers (a : Answers) (repoFiles : List (String × String))
    (s : Nat → Bytes) (fs : FS) : FS × List Event :=
  let projectPath := a.projectName
  let step1 : FS × List Event := (cloneRepo repoFiles projectPath fs, [Event.cloned])
  let step2 : FS × List Event := (step1.1, step1.2 ++ [Event.depsInstalled])
  let envRes := createEnv a projectPath s step2.1
  let step3 : FS × List Event :=
    (envRes.1,
     step2.2 ++ [match envRes.2 with
                 | some _ => Event.envFailed
                 | none => Event.envCreated])
  let step4 : FS × List Event :=
    (pruneModules a.modules projectPath step3.1, step3.2 ++ [Event.modulesPruned])
  (step4.1, step4.2 ++ [Event.setupComplete])

/-! ### Startup: argv normalisation, access check, repository selection -/

/-- The result of the two `git ls-remote` probes (lines 374-390). -/
structure Access where
  growth : Bool
  starter : Bool
deriving DecidableEq

/-- JS `x || d` for an optional string: `undefined` and the empty string
are falsy. -/
def jsOrStr (x : Option String) (d : String) : String :=
  match x with
  | some s => if s = "" then d else s
  | none => d

/-- Lines 34-41: normalisation of `process.argv[2]`/`argv[3]` into
`(repoType, projectName)`.  A recognised first argument is the repo type
and the second argument (or the default) is the project name; anything else
makes the first argument the project name and the repo type `"growth"`. -/
def normalizeArgs (argv2 argv3 : Option String) : String × String :=
  if argv2 = some "growth" ∨ argv2 = some "starter" then
    (argv2.getD "growth", jsOrStr argv3 "./my-ai-project")
  else
    ("growth", jsOrStr argv2 "./my-ai-project")

/-- The `repos` table (lines 43-46): both entries are the same git URL. -/
def repos (t : String) : Option String :=
  if t = "growth" then some "git@github.com:startkit-ai/startkit.ai.git"
  else if t = "starter" then some "git@github.com:startkit-ai/startkit.ai.git"
  else none

/-- Lines 67-74: `repo` selection.  `repoType` is always a nonempty string
after normalisation, so the access-based fallbacks are only reached on an
empty repo type. -/
def selectRepo (repoType : String) (access : Access) : Option String :=
  if repoType ≠ "" then repos repoType
  else if access.growth then repos "growth"
  else if access.starter then repos "starter"
  else none

/-- Outcome of the startup sequence (lines 57-101): `noAccess` is the
`process.exit(1)` when neither probe succeeds, `destExists` the
`process.exit(1)` when the project directory already exists, and `proceed`
means the prompts are shown.  The access check runs before the directory
check, which runs before any prompt. -/
inductive StartupResult
  | noAccess
  | destExists (repo : Option String)
  | proceed (repo : Option String) (projectName : String)
deriving DecidableEq

/-- The repository identifier the run would clone, if it selected one. -/
def StartupResult.selectedRepo : StartupResult → Option String
  | StartupResult.noAccess => none
  | StartupResult.destExists r => r
  | StartupResult.proceed r _ => r

/-- The startup sequence: argv normalisation, the no-access exit, repo
selection, the existing-directory exit, then prompting. -/
def startup (argv2 argv3 : Option String) (access : Access)
    (destTaken : String → Bool) : StartupResult :=
  let rp := normalizeArgs argv2 argv3
  if !access.growth && !access.starter then StartupResult.noAccess
  else
    let repo := selectRepo rp.1 access
    if destTaken rp.2 then StartupResult.destExists repo
    else StartupResult.proceed repo rp.2

-- Sanity checks.
example :
    startup none none ⟨false, false⟩ (fun _ => false) = StartupResult.noAccess := by
  decide
example :
    (startup (some "starter") none ⟨true, true⟩ (fun _ => false)).selectedRepo =
      some "git@github.com:startkit-ai/startkit.ai.git" := by
  decide
example :
    normalizeArgs (some "mydir") none = ("growth", "mydir") := by
  decide

/-! ### Helper lemmas about the embedding -/

/-- A concrete well-formed supply used for witnesses and counterexamples. -/
def supply0 : Nat → Bytes := fun k => List.replicate 32 (k % 256)

/-- A second concrete supply, differing from `supply0` in every draw. -/
def supply1 : Nat → Bytes := fun k => List.replicate 32 ((k + 1) % 256)

theorem supply0_valid : validSupply supply0 := by
  intro k
  refine ⟨by simp [supply0], ?_⟩
  intro b hb
  have hb' := List.eq_of_mem_replicate hb
  subst hb'
  exact Nat.mod_lt _ (by omega)

theorem supply1_valid : validSupply supply1 := by
  intro k
  refine ⟨by simp [supply1], ?_⟩
  intro b hb
  have hb' := List.eq_of_mem_replicate hb
  subst hb'
  exact Nat.mod_lt _ (by omega)

theorem processLine_snd (sec line : List Char) :
    (processLine sec line).2 = isSecretLine line := by
  unfold processLine isSecretLine
  split_ifs <;> rfl

theorem processLine_of_passthrough (sec line : List Char)
    (h : isPassthrough line = true) : (processLine sec line).1 = line := by
  unfold processLine
  rw [if_pos h]

theorem isSecretLine_eq_true (line : List Char) :
    isSecretLine line = true ↔
      isPassthrough line = false ∧
        (lineKey line = "EMBEDDINGS_BEARER_TOKEN".toList ∨
         lineKey line = "JWT_SECRET".toList) := by
  unfold isSecretLine
  split_ifs with h1 h2
  · constructor
    · intro hc; exact absurd hc (by decide)
    · intro hc; rw [h1] at hc; exact absurd hc.1 (by decide)
  · have h1' : isPassthrough line = false := by
      cases hb : isPassthrough line
      · rfl
      · exact absurd hb h1
    exact ⟨fun _ => ⟨h1', h2⟩, fun _ => rfl⟩
  · constructor
    · intro hc; exact absurd hc (by decide)
    · intro hc; exact absurd hc.2 h2

theorem processLine_of_secret (sec line : List Char)
    (h : isSecretLine line = true) :
    (processLine sec line).1 = lineKey line ++ '=' :: sec := by
  obtain ⟨h1, h2⟩ := (isSecretLine_eq_true line).1 h
  unfold processLine
  rw [if_neg (by simp [h1]), if_pos h2]

theorem processLine_of_default (sec line : List Char)
    (h1 : isPassthrough line = false) (h2 : isSecretLine line = false) :
    (processLine sec line).1 = lineKey line ++ '=' :: lineRawValue line := by
  have h2' : ¬ (lineKey line = "EMBEDDINGS_BEARER_TOKEN".toList ∨
      lineKey line = "JWT_SECRET".toList) := by
    intro hc
    rw [(isSecretLine_eq_true line).2 ⟨h1, hc⟩] at h2
    exact absurd h2 (by decide)
  unfold processLine
  rw [if_neg (by simp [h1]), if_neg h2']

theorem materializeAux_length (s : Nat → Bytes) :
    ∀ (c : Nat) (L : List (List Char)), (materializeAux s c L).length = L.length
  | _, [] => rfl
  | c, _ :: ls => by
    simp only [materializeAux, List.length_cons]
    rw [materializeAux_length s _ ls]

theorem secretsIn_cons (l : List Char) (ls : List (List Char)) :
    secretsIn (l :: ls) = secretsIn ls + (if isSecretLine l then 1 else 0) := by
  simp [secretsIn, List.countP_cons]

/-- Pointwise characterization of the materialization loop: the i-th output
line is the rewrite of the i-th input line, where a secret-consuming line at
position i uses the draw whose index is the number of secret lines strictly
before it. -/
theorem materializeAux_getD (s : Nat → Bytes) :
    ∀ (L : List (List Char)) (c i : Nat), i < L.length →
      (materializeAux s c L).getD i [] =
        (processLine (generateSecret (s (c + secretsIn (L.take i))))
          (L.getD i [])).1 := by
  intro L
  induction L with
  | nil => intro c i hi; simp at hi
  | cons l ls ih =>
    intro c i hi
    cases i with
    | zero =>
      simp [materializeAux, secretsIn]
    | succ i =>
      have hi' : i < ls.length := by simpa using hi
      have h := ih (if (processLine (generateSecret (s c)) l).2 then c + 1 else c) i hi'
      simp only [materializeAux, List.getD_cons_succ, List.take_succ_cons]
      rw [h, processLine_snd]
      rw [secretsIn_cons]
      by_cases hsl : isSecretLine l
      · have harith : c + 1 + secretsIn (ls.take i) =
            c + (secretsIn (ls.take i) + 1) := by omega
        simp [hsl, harith]
      · simp [hsl]

theorem generateSecret_cons (b : Nat) (t : Bytes) :
    generateSecret (b :: t) = byteToHex b ++ generateSecret t := rfl

theorem generateSecret_length (bs : Bytes) :
    (generateSecret bs).length = 2 * bs.length := by
  induction bs with
  | nil => rfl
  | cons b t ih =>
    rw [generateSecret_cons, List.length_append, ih]
    simp [byteToHex]
    omega

theorem hexDigitChar_isHex : ∀ n, n < 16 → isHexChar (hexDigitChar n) = true := by
  decide

theorem hexDigitChar_inj :
    ∀ a, a < 16 → ∀ b, b < 16 → hexDigitChar a = hexDigitChar b → a = b := by
  decide

theorem generateSecret_mem_hex (bs : Bytes) (hb : ∀ b ∈ bs, b < 256) :
    ∀ c ∈ generateSecret bs, isHexChar c = true := by
  induction bs with
  | nil => intro c hc; exact absurd hc (by simp [generateSecret])
  | cons b t ih =>
    intro c hc
    rw [generateSecret_cons] at hc
    rcases List.mem_append.1 hc with h | h
    · have hb256 : b < 256 := hb b (List.mem_cons_self b t)
      simp only [byteToHex, List.mem_cons, List.not_mem_nil, or_false] at h
      rcases h with rfl | rfl
      · exact hexDigitChar_isHex _ (by omega)
      · exact hexDigitChar_isHex _ (by omega)
    · exact ih (fun x hx => hb x (List.mem_cons_of_mem _ hx)) c h

theorem generateSecret_inj :
    ∀ (b1 b2 : Bytes), b1.length = b2.length →
      (∀ b ∈ b1, b < 256) → (∀ b ∈ b2, b < 256) →
      generateSecret b1 = generateSecret b2 → b1 = b2
  | [], [], _, _, _, _ => rfl
  | [], _ :: _, h, _, _, _ => by simp at h
  | _ :: _, [], h, _, _, _ => by simp at h
  | a :: t1, b :: t2, hlen, h1, h2, heq => by
    rw [generateSecret_cons, generateSecret_cons] at heq
    simp only [byteToHex, List.cons_append, List.nil_append, List.cons.injEq] at heq
    obtain ⟨e1, e2, e3⟩ := heq
    have ha : a < 256 := h1 a (List.mem_cons_self a t1)
    have hb : b < 256 := h2 b (List.mem_cons_self b t2)
    have hab : a = b := by
      have d1 := hexDigitChar_inj _ (by omega) _ (by omega) e1
      have d2 := hexDigitChar_inj _ (by omega) _ (by omega) e2
      omega
    subst hab
    have ht := generateSecret_inj t1 t2 (by simpa using hlen)
      (fun x hx => h1 x (List.mem_cons_of_mem _ hx))
      (fun x hx => h2 x (List.mem_cons_of_mem _ hx)) e3
    rw [ht]

theorem getElem?_eq_some_getD (L : List (List Char)) (i : Nat)
    (hi : i < L.length) : L[i]? = some (L.getD i []) := by
  rw [List.getElem?_eq_getElem hi]
  simp [List.getD_eq_getElem?_getD, List.getElem?_eq_getElem hi]

/-- The draw index is strictly increasing across secret lines: a secret line
earlier in the template always uses an earlier `randomBytes` draw than any
later secret line. -/
theorem secretsIn_take_lt (L : List (List Char)) (i j : Nat) (hij : i < j)
    (hi : i < L.length) (hsec : isSecretLine (L.getD i []) = true) :
    secretsIn (L.take i) < secretsIn (L.take j) := by
  have hstep : secretsIn (L.take (i + 1)) = secretsIn (L.take i) + 1 := by
    rw [List.take_succ, getElem?_eq_some_getD L i hi]
    show secretsIn (L.take i ++ [L.getD i []]) = _
    unfold secretsIn
    rw [List.countP_append]
    simp only [List.countP_cons, List.countP_nil, hsec]
    simp
  have hmono : secretsIn (L.take (i + 1)) ≤ secretsIn (L.take j) := by
    have hsub : List.Sublist (L.take (i + 1)) (L.take j) := by
      have h1 : (L.take j).take (i + 1) = L.take (i + 1) := by
        rw [List.take_take, min_eq_left (by omega)]
      have h2 := List.take_prefix (i + 1) (L.take j)
      rw [h1] at h2
      exact h2.sublist
    exact hsub.countP_le _
  omega

theorem splitOnChar_ne_nil (c : Char) : ∀ l : List Char, splitOnChar c l ≠ []
  | [] => by simp [splitOnChar]
  | x :: xs => by
    unfold splitOnChar
    split_ifs
    · simp
    · cases h : splitOnChar c xs <;> simp

theorem splitOnChar_not_mem (c : Char) (l : List Char) (h : c ∉ l) :
    splitOnChar c l = [l] := by
  induction l with
  | nil => rfl
  | cons x xs ih =>
    have hx : ¬ (x = c) := fun e => h (e ▸ List.mem_cons_self x xs)
    have hxs : c ∉ xs := fun m => h (List.mem_cons_of_mem _ m)
    unfold splitOnChar
    rw [if_neg hx, ih hxs]

theorem splitOnChar_cons (c x : Char) (xs : List Char) :
    splitOnChar c (x :: xs) =
      if x = c then [] :: splitOnChar c xs
      else
        match splitOnChar c xs with
        | [] => [[x]]
        | g :: gs => (x :: g) :: gs := rfl

/-- Splitting a list whose head part is separator-free: the first segment is
that head part. -/
theorem splitOnChar_append (c : Char) (a b : List Char) (h : c ∉ a) :
    splitOnChar c (a ++ c :: b) = a :: splitOnChar c b := by
  induction a with
  | nil =>
    rw [List.nil_append, splitOnChar_cons, if_pos rfl]
  | cons x xs ih =>
    have hx : ¬ (x = c) := fun e => h (e ▸ List.mem_cons_self x xs)
    have hxs : c ∉ xs := fun m => h (List.mem_cons_of_mem _ m)
    rw [List.cons_append, splitOnChar_cons, if_neg hx, ih hxs]

theorem find?_key_filter_ne (files : List (String × String)) (p q : String)
    (h : ¬ p = q) :
    (files.filter (fun f => !(f.1 = p))).find? (fun f => f.1 = q) =
      files.find? (fun f => f.1 = q) := by
  induction files with
  | nil => rfl
  | cons f t ih =>
    by_cases hq : f.1 = q
    · have hp : ¬ (f.1 = p) := by
        rw [hq]
        exact fun hh => h hh.symm
      have h' : ¬ q = p := fun e => h e.symm
      simp [List.filter_cons, hp, hq, h']
    · by_cases hp : f.1 = p
      · simp [List.filter_cons, hp, hq, ih]
        rw [List.find?_cons_of_neg _ (by simp [hq])]
      · simp [List.filter_cons, hp, hq, ih]

theorem FS.read_write_ne (fs : FS) (p q c : String) (h : ¬ p = q) :
    (fs.write p c).read q = fs.read q := by
  unfold FS.read FS.write
  simp only
  rw [List.find?_cons_of_neg _ (by simp [h])]
  rw [find?_key_filter_ne fs.files p q h]

theorem envPath_ne_examplePath (p : String) :
    ¬ (p ++ "/.env" = p ++ "/.env.example") := by
  intro h
  have hlen := congrArg String.length h
  rw [String.length_append, String.length_append] at hlen
  have h5 : ("/.env" : String).length = 5 := rfl
  have h13 : ("/.env.example" : String).length = 13 := rfl
  omega

/-- For a filesystem without the destination `.env` and without the template
`.env.example`, `createEnv` creates the empty `.env`, hits the missing
template on the subsequent read, and returns with the caught error: the
empty `.env` is left behind and no exception escapes. -/
theorem createEnv_templateMissing (a : Answers) (p : String) (s : Nat → Bytes)
    (fs : FS) (henv : fs.read (p ++ "/.env") = none)
    (hex : fs.read (p ++ "/.env.example") = none) :
    createEnv a p s fs =
      (fs.write (p ++ "/.env") "", some EnvError.templateMissing) := by
  unfold createEnv
  have h2 : (fs.write (p ++ "/.env") "").read (p ++ "/.env.example") =
      fs.read (p ++ "/.env.example") :=
    FS.read_write_ne fs _ _ _ (envPath_ne_examplePath p)
  simp only [henv, h2, hex]

/-- `createEnv` with the destination `.env` already present: the exclusive
create fails immediately, the filesystem is returned untouched. -/
theorem createEnv_destExists (a : Answers) (p : String) (s : Nat → Bytes)
    (fs : FS) (content : String)
    (h : fs.read (p ++ "/.env") = some content) :
    createEnv a p s fs = (fs, some EnvError.destExists) := by
  unfold createEnv
  simp only [h]

/-! ### Concrete data for witnesses and counterexamples -/

/-- The template of the spec's example scenario. -/
def exampleTemplate : String := "MONGO_URI=\nJWT_SECRET=\n# comment\nSTORAGE_NAME="

/-- A fully collected answer set whose mongoUri answer is the spec
example's `mongodb://x`. -/
def exampleAnswers : Answers :=
  { projectName := "./my-ai-project"
    modules := ["Everything!"]
    openApiKey := some "sk-test"
    mongoUri := some "mongodb://x"
    enableStorage := some "No"
    storageName := none
    storageRegion := none
    storageUrl := none
    storageKey := none
    storageSecret := none
    enablePinecone := some "No"
    pineconeApiKey := none
    pineconeIndexHost := none
    type := "(Users) I will have users who sign in and access the API"
    startAdmin := some "OK"
    openAiKey := none }

/-- The same answers with the open-access app type selected. -/
def openAnswers : Answers :=
  { exampleAnswers with
    type := "(Open) I want anyone to be able to make requests to the API for free" }

/-- A filesystem in which the template has already been cloned. -/
def exampleFS : FS := ⟨[("./my-ai-project/.env.example", exampleTemplate)]⟩

/-- A healthy cloned repository tree (relative paths). -/
def exampleRepoFiles : List (String × String) := [(".env.example", exampleTemplate)]

/-- A repository tree missing its `.env.example`. -/
def corruptRepoFiles : List (String × String) := [("README.md", "hello")]

/-- The `.env` the code actually produces from `exampleTemplate` under
`supply0`: raw template values everywhere, a generated secret only for
JWT_SECRET. -/
def exampleEnvOutput : String :=
  "MONGO_URI=\nJWT_SECRET=" ++ String.mk (List.replicate 64 '0') ++
    "\n# comment\nSTORAGE_NAME=\n"

/-- The example template's line list. -/
def exampleLines : List (List Char) := splitOnChar '\n' exampleTemplate.toList

/-- A template consisting of the two designated secret keys. -/
def secretPairLines : List (List Char) :=
  ["EMBEDDINGS_BEARER_TOKEN=".toList, "JWT_SECRET=".toList]

/-! ### The claims -/

/-- C1: refuted on the code (dead-code slip).  With the spec example's
template and an AnswerSet mapping mongoUri to `mongodb://x`, the emitted
MONGO_URI line is `MONGO_URI=` — the template's raw (empty) value — not
`MONGO_URI=mongodb://x`: the loop writes raw template values and never
consults the answers (the `output` array built from them at lines 322-335 is
never read), as witnessed by the materialized file being identical for two
different answer sets. -/
theorem C1_answers_never_substituted :
    exampleAnswers.mongoUri = some "mongodb://x" ∧
    (createEnv exampleAnswers "./my-ai-project" supply0 exampleFS).1.read
        "./my-ai-project/.env" = some exampleEnvOutput ∧
    ((splitOnChar '\n' exampleEnvOutput.toList).any
      (fun l => l = "MONGO_URI=".toList)) = true ∧
    ((splitOnChar '\n' exampleEnvOutput.toList).any
      (fun l => l = "MONGO_URI=mongodb://x".toList)) = false ∧
    createEnv exampleAnswers "./my-ai-project" supply0 exampleFS =
      createEnv openAnswers "./my-ai-project" supply0 exampleFS := by
  refine ⟨rfl, by decide, by decide, by decide, rfl⟩

/-- C3: refuted on the code (dead-code slip).  With the open-access app type
selected, the code pushes ("DISABLE_AUTH", "1") onto its `output` array, but
that array is never written: the materialized `.env` contains no line
starting with DISABLE_AUTH. -/
theorem C3_disable_auth_never_written :
    startsWithList "(Open)".toList openAnswers.type.toList = true ∧
    ("DISABLE_AUTH", some "1") ∈ envOutputArray openAnswers ∧
    (createEnv openAnswers "./my-ai-project" supply0 exampleFS).1.read
        "./my-ai-project/.env" = some exampleEnvOutput ∧
    ((splitOnChar '\n' exampleEnvOutput.toList).all
      (fun l => !startsWithList "DISABLE_AUTH".toList l)) = true := by
  refine ⟨by decide, by decide, by decide, by decide⟩

/-- C2 counterexample: an execution of the orchestrator in which the
environment-materialization stage runs (and its event is emitted) strictly
before the pruning stage, so pruning does not complete before
materialization begins. -/
theorem C2_prune_not_before_env_cex :
    (runAnswers exampleAnswers exampleRepoFiles supply0 ⟨[]⟩).2 =
      [Event.cloned, Event.depsInstalled, Event.envCreated,
       Event.modulesPruned, Event.setupComplete] ∧
    ((runAnswers exampleAnswers exampleRepoFiles supply0 ⟨[]⟩).2.indexOf
        Event.envCreated <
      (runAnswers exampleAnswers exampleRepoFiles supply0 ⟨[]⟩).2.indexOf
        Event.modulesPruned) ∧
    ¬ ((runAnswers exampleAnswers exampleRepoFiles supply0 ⟨[]⟩).2.indexOf
        Event.modulesPruned <
      (runAnswers exampleAnswers exampleRepoFiles supply0 ⟨[]⟩).2.indexOf
        Event.envCreated) := by
  refine ⟨by decide, by decide, by decide⟩

/-- C2 amended: in every run of the orchestrator the stages execute in the
fixed order clone, install dependencies, materialize the environment file,
prune modules: the MaterializingEnv stage completes before the Pruning stage
begins (the source calls `createEnv` before `pruneModules`). -/
theorem C2_env_before_prune (a : Answers) (r : List (String × String))
    (s : Nat → Bytes) (fs : FS) :
    ∃ e, (e = Event.envCreated ∨ e = Event.envFailed) ∧
      (runAnswers a r s fs).2 =
        [Event.cloned, Event.depsInstalled, e, Event.modulesPruned,
         Event.setupComplete] := by
  unfold runAnswers
  cases h : (createEnv a a.projectName s (cloneRepo r a.projectName fs)).2 with
  | none => exact ⟨Event.envCreated, Or.inl rfl, by simp [h]⟩
  | some err => exact ⟨Event.envFailed, Or.inr rfl, by simp [h]⟩

/-- C4 counterexample: with `.env.example` absent from the cloned tree, the
materialization error is caught (`templateMissing` is the caught error of
`createEnv`), yet the run continues to the pruning stage and ends by
reporting `Setup complete!` — it neither aborts nor skips subsequent
steps. -/
theorem C4_run_continues_after_missing_template_cex :
    (cloneRepo corruptRepoFiles "./my-ai-project" ⟨[]⟩).read
        "./my-ai-project/.env.example" = none ∧
    (createEnv exampleAnswers "./my-ai-project" supply0
        (cloneRepo corruptRepoFiles "./my-ai-project" ⟨[]⟩)).2 =
      some EnvError.templateMissing ∧
    (runAnswers exampleAnswers corruptRepoFiles supply0 ⟨[]⟩).2 =
      [Event.cloned, Event.depsInstalled, Event.envFailed,
       Event.modulesPruned, Event.setupComplete] := by
  refine ⟨by decide, by decide, by decide⟩

/-- C4 amended: if `.env.example` is absent at materialization time the
error is caught inside `createEnv` (which has already created an empty
`.env`) and merely logged; the run then continues to the pruning stage and
reports completion instead of aborting. -/
theorem C4_template_missing_logged_and_run_continues
    (a : Answers) (r : List (String × String)) (s : Nat → Bytes) (fs : FS)
    (henv : (cloneRepo r a.projectName fs).read (a.projectName ++ "/.env") =
      none)
    (hex : (cloneRepo r a.projectName fs).read
      (a.projectName ++ "/.env.example") = none) :
    (createEnv a a.projectName s (cloneRepo r a.projectName fs)).2 =
      some EnvError.templateMissing ∧
    (runAnswers a r s fs).2 =
      [Event.cloned, Event.depsInstalled, Event.envFailed,
       Event.modulesPruned, Event.setupComplete] := by
  have h1 := createEnv_templateMissing a a.projectName s
    (cloneRepo r a.projectName fs) henv hex
  constructor
  · rw [h1]
  · unfold runAnswers
    simp only [h1]
    rfl

/-- Witness for C4's amended theorem at a concrete corrupt clone. -/
theorem C4_template_missing_witness :
    (createEnv exampleAnswers "./my-ai-project" supply0
        (cloneRepo corruptRepoFiles "./my-ai-project" ⟨[]⟩)).2 =
      some EnvError.templateMissing ∧
    (runAnswers exampleAnswers corruptRepoFiles supply0 ⟨[]⟩).2 =
      [Event.cloned, Event.depsInstalled, Event.envFailed,
       Event.modulesPruned, Event.setupComplete] :=
  C4_template_missing_logged_and_run_continues exampleAnswers
    corruptRepoFiles supply0 ⟨[]⟩ (by decide) (by decide)

/-- C5: with no explicit repo-type override on the command line, growth is
selected whenever the growth probe succeeds; with growth unreachable and
starter reachable the selected identifier is the starter entry (the two
table entries are the same URL, and the code takes `repos[repoType]` with
the defaulted repoType); with neither reachable the run exits with the
no-access error regardless of the state of the destination directory, i.e.
before path validation, and prompts only ever run in the `proceed`
outcome. -/
theorem C5_access_resolution (argv2 argv3 : Option String)
    (d : String → Bool)
    (h : ¬ (argv2 = some "growth" ∨ argv2 = some "starter")) :
    (∀ st : Bool,
      (startup argv2 argv3 ⟨true, st⟩ d).selectedRepo = repos "growth") ∧
    (startup argv2 argv3 ⟨false, true⟩ d).selectedRepo = repos "starter" ∧
    (∀ d' : String → Bool,
      startup argv2 argv3 ⟨false, false⟩ d' = StartupResult.noAccess) := by
  refine ⟨?_, ?_, ?_⟩
  · intro st
    unfold startup normalizeArgs
    rw [if_neg h]
    cases hd : d (jsOrStr argv2 "./my-ai-project") <;>
      simp [hd, selectRepo, StartupResult.selectedRepo, repos]
  · unfold startup normalizeArgs
    rw [if_neg h]
    cases hd : d (jsOrStr argv2 "./my-ai-project") <;>
      simp [hd, selectRepo, StartupResult.selectedRepo, repos]
  · intro d'
    unfold startup normalizeArgs
    rw [if_neg h]
    simp

/-- Witness for C5 at a concrete invocation with no arguments. -/
theorem C5_access_resolution_witness :
    (startup none none ⟨true, false⟩ (fun _ => false)).selectedRepo =
      repos "growth" ∧
    (startup none none ⟨false, true⟩ (fun _ => false)).selectedRepo =
      repos "starter" ∧
    startup none none ⟨false, false⟩ (fun _ => false) =
      StartupResult.noAccess := by
  have h := C5_access_resolution none none (fun _ => false) (by decide)
  exact ⟨h.1 false, h.2.1, h.2.2 (fun _ => false)⟩

/-- C6: whenever the destination `.env` already exists, `createEnv`'s
exclusive create fails at once: the caught error is the destination-exists
condition and the whole filesystem — in particular the existing file's
contents — is returned unmodified. -/
theorem C6_dest_exists_preserves_file (a : Answers) (p : String)
    (s : Nat → Bytes) (fs : FS) (content : String)
    (h : fs.read (p ++ "/.env") = some content) :
    createEnv a p s fs = (fs, some EnvError.destExists) ∧
    (createEnv a p s fs).1.read (p ++ "/.env") = some content := by
  have h1 := createEnv_destExists a p s fs content h
  refine ⟨h1, ?_⟩
  rw [h1]
  exact h

/-- Witness for C6 at a concrete filesystem holding a prior `.env`. -/
theorem C6_dest_exists_witness :
    createEnv exampleAnswers "proj" supply0 ⟨[("proj/.env", "OLD")]⟩ =
      (⟨[("proj/.env", "OLD")]⟩, some EnvError.destExists) ∧
    (createEnv exampleAnswers "proj" supply0
        ⟨[("proj/.env", "OLD")]⟩).1.read ("proj" ++ "/.env") = some "OLD" :=
  C6_dest_exists_preserves_file exampleAnswers "proj" supply0
    ⟨[("proj/.env", "OLD")]⟩ "OLD" (by decide)

/-- C10: the growth and starter entries of the `repos` table are the
identical git URL, and every invocation that passes the access gate —
whatever the arguments, the probe results and the state of the destination —
selects that one constant identifier. -/
theorem C10_single_repo_constant (argv2 argv3 : Option String)
    (access : Access) (d : String → Bool)
    (h : access.growth = true ∨ access.starter = true) :
    repos "growth" = repos "starter" ∧
    (startup argv2 argv3 access d).selectedRepo =
      some "git@github.com:startkit-ai/startkit.ai.git" := by
  refine ⟨rfl, ?_⟩
  have hsel : ∀ (repo : Option String) (pn : String),
      (if d pn = true then StartupResult.destExists repo
       else StartupResult.proceed repo pn).selectedRepo = repo := by
    intro repo pn
    cases hd : d pn <;> simp [hd, StartupResult.selectedRepo]
  obtain ⟨g, st⟩ := access
  have hacc : (!g && !st) = false := by
    rcases h with h | h
    · simp at h
      simp [h]
    · simp at h
      simp [h]
  simp only [startup, hacc]
  rw [if_neg (by simp)]
  rw [hsel]
  by_cases hc : argv2 = some "growth" ∨ argv2 = some "starter"
  · rcases hc with hc | hc <;> subst hc <;>
      simp [normalizeArgs, selectRepo, repos]
  · simp [normalizeArgs, hc, selectRepo, repos]

/-- Witness for C10 at a concrete invocation. -/
theorem C10_single_repo_witness :
    repos "growth" = repos "starter" ∧
    (startup (some "starter") none ⟨true, false⟩
        (fun _ => false)).selectedRepo =
      some "git@github.com:startkit-ai/startkit.ai.git" :=
  C10_single_repo_constant (some "starter") none ⟨true, false⟩
    (fun _ => false) (Or.inl rfl)

/-- C7: materialization maps each element of the template's line list to
exactly one output line, in order: the output list has the template's
length, passthrough (blank or comment) elements are copied verbatim, and
every other element is rewritten in place to `key=value` for its own key.
(Every output element is then appended to the file with one trailing
newline, so the file has exactly one line per template list element.) -/
theorem C7_line_count_and_order (s : Nat → Bytes) (c : Nat)
    (L : List (List Char)) :
    (materializeAux s c L).length = L.length ∧
    ∀ i, i < L.length →
      (isPassthrough (L.getD i []) = true →
        (materializeAux s c L).getD i [] = L.getD i []) ∧
      (isPassthrough (L.getD i []) = false →
        ∃ v, (materializeAux s c L).getD i [] =
          lineKey (L.getD i []) ++ '=' :: v) := by
  refine ⟨materializeAux_length s c L, ?_⟩
  intro i hi
  rw [materializeAux_getD s L c i hi]
  constructor
  · intro hp
    exact processLine_of_passthrough _ _ hp
  · intro hp
    by_cases hsec : isSecretLine (L.getD i []) = true
    · exact ⟨_, processLine_of_secret _ _ hsec⟩
    · have hsec' : isSecretLine (L.getD i []) = false := by
        cases hb : isSecretLine (L.getD i [])
        · rfl
        · exact absurd hb hsec
      exact ⟨_, processLine_of_default _ _ hp hsec'⟩

/-- Witness for C7 on the example template: four lines in, four out, the
comment line verbatim at its position, the first line rewritten for its own
key. -/
theorem C7_line_count_witness :
    (materializeAux supply0 0 exampleLines).length = exampleLines.length ∧
    (materializeAux supply0 0 exampleLines).getD 2 [] = "# comment".toList ∧
    ∃ v, (materializeAux supply0 0 exampleLines).getD 0 [] =
      "MONGO_URI".toList ++ '=' :: v := by
  have h := C7_line_count_and_order supply0 0 exampleLines
  refine ⟨h.1, ?_, ?_⟩
  · have h2 := (h.2 2 (by decide)).1 (by decide)
    rw [h2]
    decide
  · have h0 := (h.2 0 (by decide)).2 (by decide)
    obtain ⟨v, hv⟩ := h0
    refine ⟨v, ?_⟩
    rw [hv]
    have hk : lineKey (exampleLines.getD 0 []) = "MONGO_URI".toList := by
      decide
    rw [hk]

/-- C8 counterexample: the loop's `line.split("=")` splits on every `=` and
the two-element destructuring drops everything after the second segment, so
the template line `A=b=c` is emitted as `A=b`, not passed through as
`A=b=c` with raw value `b=c`. -/
theorem C8_split_drops_tail_cex :
    (processLine (generateSecret (supply0 0)) "A=b=c".toList).1 =
      "A=b".toList ∧
    ¬ (processLine (generateSecret (supply0 0)) "A=b=c".toList).1 =
      "A=b=c".toList := by
  refine ⟨by decide, by decide⟩

/-- C8 amended: a non-blank, non-comment line whose key is not a secret key
is split on every `=`; the emitted key is the text before the first `=` and
the emitted value is only the text between the first and the second `=`
(any text after a second `=` is dropped; a line with no `=` at all gets the
value `undefined`). -/
theorem C8_value_between_first_and_second_eq (sec key v rest : List Char)
    (hkey : '=' ∉ key) (hv : '=' ∉ v)
    (hp : isPassthrough (key ++ '=' :: (v ++ '=' :: rest)) = false)
    (hs : isSecretLine (key ++ '=' :: (v ++ '=' :: rest)) = false) :
    (processLine sec (key ++ '=' :: (v ++ '=' :: rest))).1 =
      key ++ '=' :: v := by
  have hsplit : splitOnChar '=' (key ++ '=' :: (v ++ '=' :: rest)) =
      key :: v :: splitOnChar '=' rest := by
    rw [splitOnChar_append '=' key _ hkey, splitOnChar_append '=' v _ hv]
  have hk : lineKey (key ++ '=' :: (v ++ '=' :: rest)) = key := by
    unfold lineKey
    rw [hsplit]
    rfl
  have hraw : lineRawValue (key ++ '=' :: (v ++ '=' :: rest)) = v := by
    unfold lineRawValue
    rw [hsplit]
    simp
  rw [processLine_of_default sec _ hp hs, hk, hraw]

/-- Witness for C8's amended theorem on the line `A=b=c`. -/
theorem C8_value_between_witness :
    (processLine (generateSecret (supply1 0))
        ("A".toList ++ '=' :: ("b".toList ++ '=' :: "c".toList))).1 =
      "A".toList ++ '=' :: "b".toList :=
  C8_value_between_first_and_second_eq (generateSecret (supply1 0))
    "A".toList "b".toList "c".toList (by decide) (by decide) (by decide)
    (by decide)

/-- C9: for every template, every line whose key is a designated secret key
is emitted with a value that is the hex encoding of one fresh 32-byte draw
(64 characters, all lower-case hex); successive secret lines use strictly
increasing draw indices (independence per key), so two secret lines whose
draws differ get different values, and two runs over different supplies
whose draw at a line's index differs emit different lines there. -/
theorem C9_secret_values (s s' : Nat → Bytes) (hs : validSupply s)
    (hv' : validSupply s') (L : List (List Char)) :
    (∀ i, i < L.length → isSecretLine (L.getD i []) = true →
      (materializeAux s 0 L).getD i [] =
        lineKey (L.getD i []) ++ '=' ::
          generateSecret (s (secretsIn (L.take i))) ∧
      (generateSecret (s (secretsIn (L.take i)))).length = 64 ∧
      (generateSecret (s (secretsIn (L.take i)))).all
        (fun ch => isHexChar ch) = true) ∧
    (∀ i j, i < j → j < L.length →
      isSecretLine (L.getD i []) = true → isSecretLine (L.getD j []) = true →
      secretsIn (L.take i) < secretsIn (L.take j) ∧
      (s (secretsIn (L.take i)) ≠ s (secretsIn (L.take j)) →
        generateSecret (s (secretsIn (L.take i))) ≠
          generateSecret (s (secretsIn (L.take j))))) ∧
    (∀ i, i < L.length → isSecretLine (L.getD i []) = true →
      s (secretsIn (L.take i)) ≠ s' (secretsIn (L.take i)) →
      (materializeAux s 0 L).getD i [] ≠
        (materializeAux s' 0 L).getD i []) := by
  refine ⟨?_, ?_, ?_⟩
  · intro i hi hsec
    refine ⟨?_, ?_, ?_⟩
    · rw [materializeAux_getD s L 0 i hi]
      simp only [Nat.zero_add]
      exact processLine_of_secret _ _ hsec
    · rw [generateSecret_length, (hs (secretsIn (L.take i))).1]
    · rw [List.all_eq_true]
      exact generateSecret_mem_hex _ (hs (secretsIn (L.take i))).2
  · intro i j hij hj hsi hsj
    refine ⟨secretsIn_take_lt L i j hij (by omega) hsi, ?_⟩
    intro hne heq
    exact hne (generateSecret_inj _ _
      (by rw [(hs (secretsIn (L.take i))).1, (hs (secretsIn (L.take j))).1])
      (hs (secretsIn (L.take i))).2 (hs (secretsIn (L.take j))).2 heq)
  · intro i hi hsec hne heq
    rw [materializeAux_getD s L 0 i hi, materializeAux_getD s' L 0 i hi] at heq
    simp only [Nat.zero_add] at heq
    rw [processLine_of_secret _ _ hsec, processLine_of_secret _ _ hsec] at heq
    have h1 := List.append_cancel_left heq
    have h2 : generateSecret (s (secretsIn (L.take i))) =
        generateSecret (s' (secretsIn (L.take i))) := by
      injection h1
    exact hne (generateSecret_inj _ _
      (by rw [(hs (secretsIn (L.take i))).1, (hv' (secretsIn (L.take i))).1])
      (hs (secretsIn (L.take i))).2 (hv' (secretsIn (L.take i))).2 h2)

/-- Witness for C9 on a two-secret-key template with two concrete
supplies. -/
theorem C9_secret_values_witness :
    (generateSecret (supply0 (secretsIn (secretPairLines.take 0)))).length =
      64 ∧
    secretsIn (secretPairLines.take 0) <
      secretsIn (secretPairLines.take 1) ∧
    generateSecret (supply0 (secretsIn (secretPairLines.take 0))) ≠
      generateSecret (supply0 (secretsIn (secretPairLines.take 1))) ∧
    (materializeAux supply0 0 secretPairLines).getD 1 [] ≠
      (materializeAux supply1 0 secretPairLines).getD 1 [] := by
  have h := C9_secret_values supply0 supply1 supply0_valid supply1_valid
    secretPairLines
  refine ⟨(h.1 0 (by decide) (by decide)).2.1, ?_, ?_, ?_⟩
  · exact (h.2.1 0 1 (by decide) (by decide) (by decide) (by decide)).1
  · exact (h.2.1 0 1 (by decide) (by decide) (by decide) (by decide)).2
      (by decide)
  · exact h.2.2 1 (by decide) (by decide) (by decide)
